import Mathlib

/-!
Verification model of the funnel-design persistent entity store
(`src/storage/index.ts`) and its directory resolver.

The on-disk layout (`<root>/projects/<id>.json`, `<root>/entities/<id>.json`)
is modelled as two association lists from file name (the id) to file content.
A file content is either a parsed record or a corrupt blob (a file whose JSON
parse fails).  Async operations are modelled as explicit state passing; a
thrown JS error is an `Except.error`; fs effects that survive a throw are
captured by returning the state alongside the `Except` result.  Ids and
ISO-8601 timestamps are produced by `Date.now`/`Math.random`/`toISOString`;
the model takes them as explicit arguments (ids as strings, timestamps as
their millisecond values, on which `new Date(x).getTime()` is the identity).
`Promise.all` over independent per-file operations is modelled as
left-to-right sequencing; the claims proved below only concern the final
state, which does not depend on the interleaving of writes to distinct files.
-/

set_option autoImplicit false

namespace FunnelStore

/-! ## File maps: association lists keyed by file name -/

/-- Reading the directory entry for `key` (first match). -/
def lookupFile {α : Type} : List (String × α) → String → Option α
  | [], _ => none
  | (k, v) :: rest, key => if k = key then some v else lookupFile rest key

/-- Writing file `key` (overwrite if present, else create). -/
def setFile {α : Type} : List (String × α) → String → α → List (String × α)
  | [], key, v => [(key, v)]
  | (k, w) :: rest, key, v =>
      if k = key then (key, v) :: rest else (k, w) :: setFile rest key v

/-- Unlinking file `key`. -/
def removeFile {α : Type} : List (String × α) → String → List (String × α)
  | [], _ => []
  | (k, w) :: rest, key =>
      if k = key then removeFile rest key else (k, w) :: removeFile rest key

theorem lookupFile_setFile_self {α : Type} (l : List (String × α)) (key : String) (v : α) :
    lookupFile (setFile l key v) key = some v := by
  induction l with
  | nil => simp [setFile, lookupFile]
  | cons p rest ih =>
      obtain ⟨k, w⟩ := p
      by_cases h : k = key <;> simp [setFile, lookupFile, h, ih]

theorem lookupFile_setFile_ne {α : Type} (l : List (String × α)) (key key' : String) (v : α)
    (h : key' ≠ key) : lookupFile (setFile l key v) key' = lookupFile l key' := by
  induction l with
  | nil => simp [setFile, lookupFile, Ne.symm h]
  | cons p rest ih =>
      obtain ⟨k, w⟩ := p
      by_cases hk : k = key
      · subst hk
        simp [setFile, lookupFile, Ne.symm h]
      · simp only [setFile, hk, if_false, lookupFile]
        by_cases hk' : k = key'
        · simp [hk']
        · simp [hk', ih]

theorem lookupFile_removeFile_self {α : Type} (l : List (String × α)) (key : String) :
    lookupFile (removeFile l key) key = none := by
  induction l with
  | nil => simp [removeFile, lookupFile]
  | cons p rest ih =>
      obtain ⟨k, w⟩ := p
      by_cases h : k = key <;> simp [removeFile, lookupFile, h, ih]

theorem lookupFile_removeFile_ne {α : Type} (l : List (String × α)) (key key' : String)
    (h : key' ≠ key) : lookupFile (removeFile l key) key' = lookupFile l key' := by
  induction l with
  | nil => simp [removeFile, lookupFile]
  | cons p rest ih =>
      obtain ⟨k, w⟩ := p
      by_cases hk : k = key
      · rw [show removeFile ((k, w) :: rest) key = removeFile rest key from by
          simp [removeFile, hk]]
        rw [ih]
        have hkk' : ¬k = key' := fun hx => h (by rw [← hx]; exact hk)
        simp [lookupFile, hkk']
      · simp only [removeFile, hk, if_false, lookupFile]
        by_cases hk' : k = key'
        · simp [hk']
        · simp [hk', ih]

theorem lookupFile_removeFile_none {α : Type} (l : List (String × α)) (key key' : String)
    (h : lookupFile l key' = none) : lookupFile (removeFile l key) key' = none := by
  by_cases hk : key' = key
  · subst hk; exact lookupFile_removeFile_self l key'
  · rw [lookupFile_removeFile_ne l key key' hk]; exact h

/-! ## Data model

Record shapes are translated from the entity schemas (`src/tools/aida.ts`,
`src/tools/content.ts`) and the field accesses in
`src/storage/index.ts:formatEntityAsMarkdown`.  JS `number` fields are
modelled as `Int` (the rendered values in this repository are integers);
optional fields are `Option`s.  The optional `researchMetadata` envelope
field is opaque to the storage layer and to the formatter, so it is not
modelled.  `StorageError.cause` (the wrapped underlying JS error object) is
likewise dropped from the model. -/

structure AidaChannel where
  channel : String
  tactic : Option String
  budget : Option String
  expectedReach : Option String
deriving DecidableEq, Repr

structure AidaHook where
  hook : String
  format : Option String
deriving DecidableEq, Repr

structure AidaAttention where
  channels : List AidaChannel
  hooks : Option (List AidaHook)
  targetAudience : Option String
deriving DecidableEq, Repr

structure AidaContentType where
  type : String
  purpose : Option String
  format : Option String
deriving DecidableEq, Repr

structure AidaInterest where
  contentTypes : List AidaContentType
  engagementTactics : Option (List String)
  valueProposition : Option String
  painPointsAddressed : Option (List String)
deriving DecidableEq, Repr

structure SocialProofItem where
  type : String
  content : String
deriving DecidableEq, Repr

structure AidaBenefit where
  benefit : String
  emotionalTrigger : Option String
deriving DecidableEq, Repr

structure ObjectionItem where
  objection : String
  response : String
deriving DecidableEq, Repr

structure AidaDesire where
  socialProof : Option (List SocialProofItem)
  benefits : List AidaBenefit
  urgencyTactics : Option (List String)
  objectionHandling : Option (List ObjectionItem)
deriving DecidableEq, Repr

structure PrimaryCta where
  text : String
  destination : Option String
  placement : Option String
deriving DecidableEq, Repr

structure SecondaryCta where
  text : String
  destination : Option String
deriving DecidableEq, Repr

structure AidaAction where
  primaryCta : PrimaryCta
  secondaryCtas : Option (List SecondaryCta)
  frictionReducers : Option (List String)
  conversionGoal : Option String
  expectedConversionRate : Option String
deriving DecidableEq, Repr

structure AidaMetrics where
  awarenessKpis : Option (List String)
  engagementKpis : Option (List String)
  conversionKpis : Option (List String)
deriving DecidableEq, Repr

structure AidaData where
  attention : AidaAttention
  interest : AidaInterest
  desire : AidaDesire
  action : AidaAction
  metrics : Option AidaMetrics
deriving DecidableEq, Repr

structure TofuContentItem where
  type : String
  topic : String
  format : Option String
  distributionChannel : Option String
deriving DecidableEq, Repr

structure TofuData where
  goal : String
  audience : Option String
  contentTypes : List TofuContentItem
  keywords : Option (List String)
  cta : Option String
  successMetrics : Option (List String)
deriving DecidableEq, Repr

structure MofuContentItem where
  type : String
  topic : String
  format : Option String
  gatingStrategy : Option String
deriving DecidableEq, Repr

structure LeadMagnet where
  name : String
  type : String
  valueProposition : Option String
deriving DecidableEq, Repr

structure MofuData where
  goal : String
  nurturingStrategy : Option String
  contentTypes : List MofuContentItem
  leadMagnets : Option (List LeadMagnet)
deriving DecidableEq, Repr

structure BofuContentItem where
  type : String
  topic : String
  format : Option String
deriving DecidableEq, Repr

structure BofuData where
  goal : String
  contentTypes : List BofuContentItem
  conversionTactics : Option (List String)
  pricingStrategy : Option String
deriving DecidableEq, Repr

structure ContentData where
  tofu : TofuData
  mofu : MofuData
  bofu : BofuData
deriving DecidableEq, Repr

structure FunnelStage where
  name : String
  description : Option String
  entryCriteria : Option String
  exitCriteria : Option String
  volume : Option Int
  conversionRate : Option Int
  averageTimeInStage : Option String
  keyActions : Option (List String)
  dropOffReasons : Option (List String)
  optimizationNotes : Option String
deriving DecidableEq, Repr

structure TrafficSource where
  source : String
  medium : Option String
  volume : Option Int
  qualityScore : Option Int
  cost : Option String
  conversionRate : Option Int
deriving DecidableEq, Repr

structure OverallMetrics where
  totalVisitors : Option Int
  totalConversions : Option Int
  overallConversionRate : Option Int
  averageDealValue : Option String
  customerAcquisitionCost : Option String
  timeToConversion : Option String
deriving DecidableEq, Repr

structure Bottleneck where
  stage : String
  issue : String
  impact : Option String
  proposedSolution : Option String
deriving DecidableEq, Repr

structure ConversionData where
  stages : List FunnelStage
  trafficSources : Option (List TrafficSource)
  overallMetrics : Option OverallMetrics
  bottlenecks : Option (List Bottleneck)
deriving DecidableEq, Repr

structure Touchpoint where
  channel : String
  interaction : String
  owner : Option String
deriving DecidableEq, Repr

structure StageEmotions where
  feeling : String
  intensity : Option String
deriving DecidableEq, Repr

structure JourneyStage where
  name : String
  description : Option String
  customerGoal : String
  duration : Option String
  touchpoints : List Touchpoint
  emotions : Option StageEmotions
  painPoints : Option (List String)
  opportunities : Option (List String)
  keyQuestions : Option (List String)
deriving DecidableEq, Repr

structure MomentOfTruth where
  stage : String
  moment : String
  importance : Option String
  currentExperience : Option String
  desiredExperience : Option String
deriving DecidableEq, Repr

structure JourneyChannel where
  name : String
  role : Option String
  effectiveness : Option String
deriving DecidableEq, Repr

structure JourneyImprovement where
  stage : String
  improvement : String
  priority : Option String
  effort : Option String
  expectedImpact : Option String
deriving DecidableEq, Repr

structure JourneyData where
  personaReference : Option String
  stages : List JourneyStage
  momentsOfTruth : Option (List MomentOfTruth)
  channels : Option (List JourneyChannel)
  improvements : Option (List JourneyImprovement)
deriving DecidableEq, Repr

/-- Variant payload of an entity, discriminated by the `type` tag. -/
inductive EntityData where
  | aidaFunnel (d : AidaData)
  | contentFunnel (d : ContentData)
  | conversionFunnel (d : ConversionData)
  | customerJourney (d : JourneyData)
deriving DecidableEq, Repr

/-- The string value of the `type` discriminant for each variant. -/
def EntityData.typeTag : EntityData → String
  | .aidaFunnel _ => "aida-funnel"
  | .contentFunnel _ => "content-funnel"
  | .conversionFunnel _ => "conversion-funnel"
  | .customerJourney _ => "customer-journey"

/-- Common envelope of a persisted entity record plus its variant payload. -/
structure Entity where
  id : String
  projectId : String
  name : String
  description : Option String
  createdAt : Nat
  updatedAt : Nat
  data : EntityData
deriving DecidableEq, Repr

/-- The entity's `type` discriminant. -/
def Entity.type (e : Entity) : String := e.data.typeTag

/-- Caller-supplied part of an entity on creation
(`Omit<T, "id" | "projectId" | "createdAt" | "updatedAt">`). -/
structure EntityPayload where
  name : String
  description : Option String
  data : EntityData
deriving DecidableEq, Repr

/-- Lightweight reference `{id, type}` kept in a project's `entities` list. -/
structure EntityRef where
  id : String
  type : String
deriving DecidableEq, Repr

/-- Persisted project record. -/
structure Project where
  id : String
  name : String
  description : Option String
  tags : Option (List String)
  createdAt : Nat
  updatedAt : Nat
  entities : List EntityRef
deriving DecidableEq, Repr

/-- Content of a project file: a parsed record, or a file whose JSON parse
throws. -/
inductive PFile where
  | record (p : Project)
  | corrupt
deriving DecidableEq, Repr

/-- Content of an entity file. -/
inductive EFile where
  | record (e : Entity)
  | corrupt
deriving DecidableEq, Repr

/-- The filesystem subtree under the resolved storage root. -/
structure FsState where
  projects : List (String × PFile)
  entities : List (String × EFile)
deriving DecidableEq, Repr

/-- The `StorageErrorCode` union from `src/storage/index.ts`. -/
inductive StorageErrorCode where
  | NOT_FOUND
  | WRITE_FAILED
  | READ_FAILED
  | DELETE_FAILED
  | INVALID_DATA
deriving DecidableEq, Repr

/-- A thrown JS error: either a `StorageError` (message, code) or a plain
`new Error(message)`. -/
inductive Err where
  | storage (message : String) (code : StorageErrorCode)
  | generic (message : String)
deriving DecidableEq, Repr

/-- The `message` property of a thrown error. -/
def Err.message : Err → String
  | .storage m _ => m
  | .generic m => m

/-! ## Fault model

`fs.unlink` may fail with an error other than `ENOENT` (permissions, I/O).
The fault configuration says which unlink calls fail that way; all other
modelled fs calls succeed. -/

structure Faults where
  entityUnlinkFails : String → Bool
  projectUnlinkFails : String → Bool

/-- The fault-free filesystem. -/
def noFaults : Faults := ⟨fun _ => false, fun _ => false⟩

/-! ## Store operations (`src/storage/index.ts`)

Stateful operations return their JS result (or thrown error) together with
the filesystem state as of the return/throw, since fs effects performed
before a throw persist. -/

/-- Model of `getProject` (src/storage/index.ts:87): `ENOENT` is the benign null
result; any other read/parse failure is wrapped as `READ_FAILED`. -/
def getProject (st : FsState) (projectId : String) : Except Err (Option Project) :=
  match lookupFile st.projects projectId with
  | none => .ok none
  | some (.record p) => .ok (some p)
  | some .corrupt =>
      .error (.storage ("Failed to read project " ++ projectId) .READ_FAILED)

/-- Model of `getEntity` (src/storage/index.ts:191). -/
def getEntity (st : FsState) (entityId : String) : Except Err (Option Entity) :=
  match lookupFile st.entities entityId with
  | none => .ok none
  | some (.record e) => .ok (some e)
  | some .corrupt =>
      .error (.storage ("Failed to read entity " ++ entityId) .READ_FAILED)

/-- Model of `createProject` (src/storage/index.ts:62). `newId` is the value
`generateId()` returns; `ts1`/`ts2` the two `timestamp()` values. -/
def createProject (st : FsState) (name : String) (description : Option String)
    (tags : Option (List String)) (newId : String) (ts1 ts2 : Nat) :
    Project × FsState :=
  let project : Project :=
    { id := newId, name := name, description := description, tags := tags,
      createdAt := ts1, updatedAt := ts2, entities := [] }
  (project, { st with projects := setFile st.projects project.id (.record project) })

/-- Model of `updateProject` (src/storage/index.ts:104): refreshes `updatedAt`
unconditionally and overwrites the file named by `project.id`. -/
def updateProject (st : FsState) (project : Project) (ts : Nat) :
    Project × FsState :=
  let p := { project with updatedAt := ts }
  (p, { st with projects := setFile st.projects p.id (.record p) })

/-- Model of `updateEntity` (src/storage/index.ts:208). -/
def updateEntity (st : FsState) (entity : Entity) (ts : Nat) : Entity × FsState :=
  let e := { entity with updatedAt := ts }
  (e, { st with entities := setFile st.entities e.id (.record e) })

/-- Model of `createEntity` (src/storage/index.ts:158): project lookup, plain-`Error`
throw when missing, entity-file write, reference append, project persist. -/
def createEntity (st : FsState) (projectId : String) (payload : EntityPayload)
    (newId : String) (ts1 ts2 ts3 : Nat) : (Except Err Entity) × FsState :=
  match getProject st projectId with
  | .error e => (.error e, st)
  | .ok none => (.error (.generic ("Project " ++ projectId ++ " not found")), st)
  | .ok (some project) =>
      let fullEntity : Entity :=
        { id := newId, projectId := projectId, name := payload.name,
          description := payload.description, createdAt := ts1, updatedAt := ts2,
          data := payload.data }
      let st1 : FsState :=
        { st with entities := setFile st.entities fullEntity.id (.record fullEntity) }
      let project1 :=
        { project with
            entities := project.entities ++ [⟨fullEntity.id, fullEntity.type⟩] }
      (.ok fullEntity, (updateProject st1 project1 ts3).2)

/-- Model of `deleteEntity` (src/storage/index.ts:218): read the entity (absent →
`false`), remove its reference from the owning project when that project
still exists, then unlink the entity file. -/
def deleteEntity (st : FsState) (flt : Faults) (entityId : String) (ts : Nat) :
    (Except Err Bool) × FsState :=
  match getEntity st entityId with
  | .error e => (.error e, st)
  | .ok none => (.ok false, st)
  | .ok (some entity) =>
      match getProject st entity.projectId with
      | .error e => (.error e, st)
      | .ok maybeProject =>
          let st1 : FsState :=
            match maybeProject with
            | some project =>
                (updateProject st
                  { project with
                      entities := project.entities.filter (fun r => r.id != entityId) }
                  ts).2
            | none => st
          match lookupFile st1.entities entityId with
          | none => (.ok false, st1)
          | some _ =>
              if flt.entityUnlinkFails entityId then
                (.error (.storage ("Failed to delete entity " ++ entityId)
                  .DELETE_FAILED), st1)
              else (.ok true, { st1 with entities := removeFile st1.entities entityId })

/-- The awaited `Promise.all(project.entities.map((ref) => deleteEntity(ref.id)))`
of `deleteProject`, modelled as left-to-right sequencing; a rejection
propagates and aborts the remainder. -/
def deleteEntityList (st : FsState) (flt : Faults) (ids : List String) (ts : Nat) :
    (Except Err Unit) × FsState :=
  match ids with
  | [] => (.ok (), st)
  | i :: rest =>
      match deleteEntity st flt i ts with
      | (.error e, st') => (.error e, st')
      | (.ok _, st') => deleteEntityList st' flt rest ts

/-- Model of `deleteProject` (src/storage/index.ts:114): absent project → `false`;
otherwise cascade-delete every referenced entity, then unlink the project
file. -/
def deleteProject (st : FsState) (flt : Faults) (projectId : String) (ts : Nat) :
    (Except Err Bool) × FsState :=
  match getProject st projectId with
  | .error e => (.error e, st)
  | .ok none => (.ok false, st)
  | .ok (some project) =>
      match deleteEntityList st flt (project.entities.map (fun r => r.id)) ts with
      | (.error e, st1) => (.error e, st1)
      | (.ok _, st1) =>
          match lookupFile st1.projects projectId with
          | none => (.ok false, st1)
          | some _ =>
              if flt.projectUnlinkFails projectId then
                (.error (.storage ("Failed to delete project " ++ projectId)
                  .DELETE_FAILED), st1)
              else (.ok true, { st1 with projects := removeFile st1.projects projectId })

/-- The project records that parse in a directory scan
(`listProjects` reads every `*.json` file, logging and skipping each file
whose read/parse fails). -/
def parsableProjects (st : FsState) : List Project :=
  st.projects.filterMap (fun p =>
    match p.2 with
    | .record pr => some pr
    | .corrupt => none)

/-- Comparator of the `listProjects` sort
(`(a, b) => new Date(b.updatedAt).getTime() - new Date(a.updatedAt).getTime()`):
descending by `updatedAt`. -/
def byUpdatedAtDesc (a b : Project) : Prop := b.updatedAt ≤ a.updatedAt

instance : DecidableRel byUpdatedAtDesc := fun a b => Nat.decLe b.updatedAt a.updatedAt

instance : IsTotal Project byUpdatedAtDesc :=
  ⟨fun a b => Nat.le_total b.updatedAt a.updatedAt⟩

instance : IsTrans Project byUpdatedAtDesc :=
  ⟨fun _ _ _ h1 h2 => Nat.le_trans h2 h1⟩

/-- Model of `listProjects` (src/storage/index.ts:136): best-effort scan, then a
comparator sort (the JS engine's comparator sort is modelled by a sort
correct for the same comparator; the spec documents tie order as
arbitrary). -/
def listProjects (st : FsState) : List Project :=
  List.insertionSort byUpdatedAtDesc (parsableProjects st)

/-- The awaited `Promise.all(project.entities.map((ref) => getEntity(ref.id)))`
of `listEntitiesByProject`, modelled as left-to-right sequencing. -/
def resolveEntityRefs (st : FsState) : List EntityRef → Except Err (List (Option Entity))
  | [] => .ok []
  | r :: rest =>
      match getEntity st r.id with
      | .error e => .error e
      | .ok e =>
          match resolveEntityRefs st rest with
          | .error err => .error err
          | .ok es => .ok (e :: es)

/-- Model of `listEntitiesByProject` (src/storage/index.ts:244): missing project →
empty list; resolved references are filtered for non-null. -/
def listEntitiesByProject (st : FsState) (projectId : String) :
    Except Err (List Entity) :=
  match getProject st projectId with
  | .error e => .error e
  | .ok none => .ok []
  | .ok (some project) =>
      match resolveEntityRefs st project.entities with
      | .error e => .error e
      | .ok resolved => .ok (resolved.filterMap id)

/-- Model of `listEntitiesByType` (src/storage/index.ts:256). -/
def listEntitiesByType (st : FsState) (projectId : String) (type : String) :
    Except Err (List Entity) :=
  match listEntitiesByProject st projectId with
  | .error e => .error e
  | .ok entities => .ok (entities.filter (fun e => e.type == type))

/-- Model of `exportProjectToJson` (src/storage/index.ts:264): `JSON.stringify` of the
`{ project, entities }` snapshot is modelled as the structured snapshot
itself (the serialization to text is not modelled). -/
def exportProjectToJson (st : FsState) (projectId : String) :
    Except Err (Project × List Entity) :=
  match getProject st projectId with
  | .error e => .error e
  | .ok none => .error (.generic ("Project " ++ projectId ++ " not found"))
  | .ok (some project) =>
      match listEntitiesByProject st projectId with
      | .error e => .error e
      | .ok entities => .ok (project, entities)

/-! ## Markdown export (`src/storage/index.ts:273` and `:299`)

The JS statement pattern `if (x) md += render(x)` on an optional field is
translated by the `appendIf*` helpers below (JS truthiness: `undefined` and
`""` are falsy for strings, `undefined` and `0` for numbers, and an
`xs?.length` guard is falsy for `undefined` and `[]`).  A `for` loop that
appends per element is a `List.foldl` that appends per element. -/

/-- Translation of `if (x) md += render(x)` for an optional string field. -/
def appendIfStr (md : String) (field : Option String) (render : String → String) :
    String :=
  match field with
  | some s => if s = "" then md else md ++ render s
  | none => md

/-- Translation of `if (x) md += render(x)` for an optional numeric field. -/
def appendIfNum (md : String) (field : Option Int) (render : Int → String) : String :=
  match field with
  | some n => if n = 0 then md else md ++ render n
  | none => md

/-- Translation of `if (xs?.length) md += render(xs)` for an optional array field. -/
def appendIfList {α : Type} (md : String) (field : Option (List α))
    (render : List α → String) : String :=
  match field with
  | some l => if l.isEmpty then md else md ++ render l
  | none => md

/-- Translation of `if (x !== undefined) md += render(x)` (also of an
`if (x) md += render(x)` guard for
an optional object field): present means rendered, whatever the value. -/
def appendIfSome {α : Type} (md : String) (field : Option α) (render : α → String) :
    String :=
  match field with
  | some x => md ++ render x
  | none => md

/-- One iteration of the `for (const stage of entity.stages)` loop of the
`conversion-funnel` case (src/storage/index.ts:438-451), as the text it
appends. -/
def formatConversionStage (stage : FunnelStage) : String :=
  let md := "#### " ++ stage.name ++ "\n"
  let md := appendIfStr md stage.description (fun d => d ++ "\n\n")
  let md := appendIfStr md stage.entryCriteria (fun s => "**Entry:** " ++ s ++ "\n")
  let md := appendIfStr md stage.exitCriteria (fun s => "**Exit:** " ++ s ++ "\n")
  let md := appendIfSome md stage.volume (fun v => "**Volume:** " ++ toString v ++ "\n")
  let md := appendIfSome md stage.conversionRate (fun r =>
    "**Conversion Rate:** " ++ toString r ++ "%\n")
  let md := appendIfStr md stage.averageTimeInStage (fun s => "**Avg Time:** " ++ s ++ "\n")
  let md := appendIfList md stage.dropOffReasons (fun rs =>
    "**Drop-off Reasons:** " ++ String.intercalate ", " rs ++ "\n")
  let md := appendIfStr md stage.optimizationNotes (fun s => "**Optimization:** " ++ s ++ "\n")
  md ++ "\n"

/-- The `aida-funnel` case of `formatEntityAsMarkdown`
(src/storage/index.ts:303-378). -/
def formatAida (e : Entity) (d : AidaData) : String :=
  let md := "## AIDA Funnel: " ++ e.name ++ "\n\n"
  let md := appendIfStr md e.description (fun s => s ++ "\n\n")
  let md := md ++ "### Attention\n"
  let md := appendIfStr md d.attention.targetAudience (fun s =>
    "**Target Audience:** " ++ s ++ "\n\n")
  let md := md ++ "#### Channels\n"
  let md := d.attention.channels.foldl (fun acc ch =>
    let acc := acc ++ "- **" ++ ch.channel ++ "**"
    let acc := appendIfStr acc ch.tactic (fun s => " - " ++ s)
    let acc := appendIfStr acc ch.budget (fun s => " (Budget: " ++ s ++ ")")
    let acc := appendIfStr acc ch.expectedReach (fun s => " | Reach: " ++ s)
    acc ++ "\n") md
  let md := appendIfList md d.attention.hooks (fun hooks =>
    "\n#### Hooks\n" ++ hooks.foldl (fun acc hk =>
      let acc := acc ++ "- " ++ hk.hook
      let acc := appendIfStr acc hk.format (fun s => " (" ++ s ++ ")")
      acc ++ "\n") "")
  let md := md ++ "\n"
  let md := md ++ "### Interest\n"
  let md := appendIfStr md d.interest.valueProposition (fun s =>
    "**Value Proposition:** " ++ s ++ "\n\n")
  let md := md ++ "#### Content Types\n"
  let md := d.interest.contentTypes.foldl (fun acc ct =>
    let acc := acc ++ "- **" ++ ct.type ++ "**"
    let acc := appendIfStr acc ct.purpose (fun s => " - " ++ s)
    let acc := appendIfStr acc ct.format (fun s => " (" ++ s ++ ")")
    acc ++ "\n") md
  let md := appendIfList md d.interest.painPointsAddressed (fun ps =>
    "\n**Pain Points Addressed:** " ++ String.intercalate ", " ps ++ "\n")
  let md := md ++ "\n"
  let md := md ++ "### Desire\n"
  let md := md ++ "#### Benefits\n"
  let md := d.desire.benefits.foldl (fun acc ben =>
    let acc := acc ++ "- **" ++ ben.benefit ++ "**"
    let acc := appendIfStr acc ben.emotionalTrigger (fun s => " (Trigger: " ++ s ++ ")")
    acc ++ "\n") md
  let md := appendIfList md d.desire.socialProof (fun sps =>
    "\n#### Social Proof\n" ++ sps.foldl (fun acc sp =>
      acc ++ "- [" ++ sp.type ++ "] " ++ sp.content ++ "\n") "")
  let md := appendIfList md d.desire.objectionHandling (fun objs =>
    "\n#### Objection Handling\n" ++ objs.foldl (fun acc o =>
      acc ++ "- **" ++ o.objection ++ "** → " ++ o.response ++ "\n") "")
  let md := md ++ "\n"
  let md := md ++ "### Action\n"
  let md := md ++ "**Primary CTA:** " ++ d.action.primaryCta.text
  let md := appendIfStr md d.action.primaryCta.destination (fun s => " → " ++ s)
  let md := md ++ "\n\n"
  let md := appendIfList md d.action.secondaryCtas (fun ctas =>
    "**Secondary CTAs:**\n" ++ ctas.foldl (fun acc c =>
      let acc := acc ++ "- " ++ c.text
      let acc := appendIfStr acc c.destination (fun s => " → " ++ s)
      acc ++ "\n") "" ++ "\n")
  let md := appendIfStr md d.action.conversionGoal (fun s =>
    "**Conversion Goal:** " ++ s ++ "\n")
  let md := appendIfStr md d.action.expectedConversionRate (fun s =>
    "**Expected Conversion Rate:** " ++ s ++ "\n")
  md ++ "\n"

/-- The `content-funnel` case of `formatEntityAsMarkdown`
(src/storage/index.ts:380-431). -/
def formatContent (e : Entity) (d : ContentData) : String :=
  let md := "## Content Funnel: " ++ e.name ++ "\n\n"
  let md := appendIfStr md e.description (fun s => s ++ "\n\n")
  let md := md ++ "### Top of Funnel (TOFU)\n"
  let md := md ++ "**Goal:** " ++ d.tofu.goal ++ "\n\n"
  let md := appendIfStr md d.tofu.audience (fun s => "**Audience:** " ++ s ++ "\n\n")
  let md := md ++ "#### Content\n"
  let md := d.tofu.contentTypes.foldl (fun acc ct =>
    let acc := acc ++ "- **" ++ ct.type ++ ":** " ++ ct.topic
    let acc := appendIfStr acc ct.format (fun s => " (" ++ s ++ ")")
    let acc := appendIfStr acc ct.distributionChannel (fun s => " via " ++ s)
    acc ++ "\n") md
  let md := appendIfList md d.tofu.keywords (fun ks =>
    "\n**Keywords:** " ++ String.intercalate ", " ks ++ "\n")
  let md := appendIfStr md d.tofu.cta (fun s => "**CTA:** " ++ s ++ "\n")
  let md := md ++ "\n"
  let md := md ++ "### Middle of Funnel (MOFU)\n"
  let md := md ++ "**Goal:** " ++ d.mofu.goal ++ "\n\n"
  let md := appendIfStr md d.mofu.nurturingStrategy (fun s =>
    "**Nurturing Strategy:** " ++ s ++ "\n\n")
  let md := md ++ "#### Content\n"
  let md := d.mofu.contentTypes.foldl (fun acc ct =>
    let acc := acc ++ "- **" ++ ct.type ++ ":** " ++ ct.topic
    let acc := appendIfStr acc ct.format (fun s => " (" ++ s ++ ")")
    let acc := appendIfStr acc ct.gatingStrategy (fun s => " [" ++ s ++ "]")
    acc ++ "\n") md
  let md := appendIfList md d.mofu.leadMagnets (fun lms =>
    "\n#### Lead Magnets\n" ++ lms.foldl (fun acc lm =>
      let acc := acc ++ "- **" ++ lm.name ++ "** (" ++ lm.type ++ ")"
      let acc := appendIfStr acc lm.valueProposition (fun s => ": " ++ s)
      acc ++ "\n") "")
  let md := md ++ "\n"
  let md := md ++ "### Bottom of Funnel (BOFU)\n"
  let md := md ++ "**Goal:** " ++ d.bofu.goal ++ "\n\n"
  let md := md ++ "#### Content\n"
  let md := d.bofu.contentTypes.foldl (fun acc ct =>
    let acc := acc ++ "- **" ++ ct.type ++ ":** " ++ ct.topic
    let acc := appendIfStr acc ct.format (fun s => " (" ++ s ++ ")")
    acc ++ "\n") md
  let md := appendIfList md d.bofu.conversionTactics (fun cts =>
    "\n**Conversion Tactics:** " ++ String.intercalate ", " cts ++ "\n")
  let md := appendIfStr md d.bofu.pricingStrategy (fun s =>
    "**Pricing Strategy:** " ++ s ++ "\n")
  md ++ "\n"

/-- The `conversion-funnel` case of `formatEntityAsMarkdown`
(src/storage/index.ts:433-486). -/
def formatConversion (e : Entity) (d : ConversionData) : String :=
  let md := "## Conversion Funnel: " ++ e.name ++ "\n\n"
  let md := appendIfStr md e.description (fun s => s ++ "\n\n")
  let md := md ++ "### Stages\n"
  let md := d.stages.foldl (fun acc stage => acc ++ formatConversionStage stage) md
  let md := appendIfList md d.trafficSources (fun tss =>
    "### Traffic Sources\n" ++ tss.foldl (fun acc src =>
      let acc := acc ++ "- **" ++ src.source ++ "**"
      let acc := appendIfStr acc src.medium (fun s => " (" ++ s ++ ")")
      let acc := appendIfNum acc src.volume (fun n => " - " ++ toString n ++ " visitors")
      let acc := appendIfNum acc src.conversionRate (fun n =>
        " | " ++ toString n ++ "% conversion")
      acc ++ "\n") "" ++ "\n")
  let md := appendIfSome md d.overallMetrics (fun om =>
    let acc := "### Overall Metrics\n"
    let acc := appendIfNum acc om.totalVisitors (fun n =>
      "- **Total Visitors:** " ++ toString n ++ "\n")
    let acc := appendIfNum acc om.totalConversions (fun n =>
      "- **Total Conversions:** " ++ toString n ++ "\n")
    let acc := appendIfNum acc om.overallConversionRate (fun n =>
      "- **Overall Conversion Rate:** " ++ toString n ++ "%\n")
    let acc := appendIfStr acc om.averageDealValue (fun s =>
      "- **Average Deal Value:** " ++ s ++ "\n")
    let acc := appendIfStr acc om.customerAcquisitionCost (fun s =>
      "- **CAC:** " ++ s ++ "\n")
    acc ++ "\n")
  let md := appendIfList md d.bottlenecks (fun bns =>
    "### Bottlenecks\n" ++ bns.foldl (fun acc bn =>
      let acc := acc ++ "- **" ++ bn.stage ++ ":** " ++ bn.issue
      let acc := appendIfStr acc bn.impact (fun s => " (" ++ s ++ " impact)")
      let acc := appendIfStr acc bn.proposedSolution (fun s => "\n  - Solution: " ++ s)
      acc ++ "\n") "" ++ "\n")
  md

/-- One iteration of the `for (const stage of entity.stages)` loop of the
`customer-journey` case (src/storage/index.ts:494-521). -/
def formatJourneyStage (stage : JourneyStage) : String :=
  let md := "#### " ++ stage.name ++ "\n"
  let md := appendIfStr md stage.description (fun s => s ++ "\n\n")
  let md := md ++ "**Customer Goal:** " ++ stage.customerGoal ++ "\n"
  let md := appendIfStr md stage.duration (fun s => "**Duration:** " ++ s ++ "\n")
  let md := md ++ "\n"
  let md := md ++ "**Touchpoints:**\n"
  let md := stage.touchpoints.foldl (fun acc tp =>
    let acc := acc ++ "- " ++ tp.channel ++ ": " ++ tp.interaction
    let acc := appendIfStr acc tp.owner (fun s => " (" ++ s ++ ")")
    acc ++ "\n") md
  let md :=
    match stage.emotions with
    | some em =>
        let acc := md ++ "\n**Emotion:** " ++ em.feeling
        let acc := appendIfStr acc em.intensity (fun s => " (" ++ s ++ ")")
        acc ++ "\n"
    | none => md
  let md := appendIfList md stage.painPoints (fun ps =>
    "**Pain Points:** " ++ String.intercalate ", " ps ++ "\n")
  let md := appendIfList md stage.opportunities (fun ops =>
    "**Opportunities:** " ++ String.intercalate ", " ops ++ "\n")
  md ++ "\n"

/-- One iteration of the moments-of-truth loop of the `customer-journey`
case (src/storage/index.ts:525-531). -/
def formatMomentOfTruth (mot : MomentOfTruth) : String :=
  let md := "- **" ++ mot.stage ++ ":** " ++ mot.moment
  let md := appendIfStr md mot.importance (fun s => " (" ++ s ++ ")")
  let md := md ++ "\n"
  let md := appendIfStr md mot.currentExperience (fun s => "  - Current: " ++ s ++ "\n")
  appendIfStr md mot.desiredExperience (fun s => "  - Desired: " ++ s ++ "\n")

/-- The `customer-journey` case of `formatEntityAsMarkdown`
(src/storage/index.ts:488-545). -/
def formatJourney (e : Entity) (d : JourneyData) : String :=
  let md := "## Customer Journey: " ++ e.name ++ "\n\n"
  let md := appendIfStr md e.description (fun s => s ++ "\n\n")
  let md := appendIfStr md d.personaReference (fun s => "**Persona:** " ++ s ++ "\n\n")
  let md := md ++ "### Stages\n"
  let md := d.stages.foldl (fun acc stage => acc ++ formatJourneyStage stage) md
  let md := appendIfList md d.momentsOfTruth (fun mots =>
    "### Moments of Truth\n" ++ mots.foldl (fun acc mot =>
      acc ++ formatMomentOfTruth mot) "" ++ "\n")
  let md := appendIfList md d.improvements (fun imps =>
    "### Improvements\n" ++ imps.foldl (fun acc imp =>
      let acc := acc ++ "- **" ++ imp.stage ++ ":** " ++ imp.improvement
      let acc := appendIfStr acc imp.priority (fun s => " [" ++ s ++ "]")
      let acc := appendIfStr acc imp.expectedImpact (fun s => " → " ++ s)
      acc ++ "\n") "" ++ "\n")
  md

/-- Model of `formatEntityAsMarkdown` (src/storage/index.ts:299): dispatch on the
`type` discriminant. -/
def formatEntityAsMarkdown (e : Entity) : String :=
  match e.data with
  | .aidaFunnel d => formatAida e d
  | .contentFunnel d => formatContent e d
  | .conversionFunnel d => formatConversion e d
  | .customerJourney d => formatJourney e d

/-- Model of `exportProjectToMarkdown` (src/storage/index.ts:273). -/
def exportProjectToMarkdown (st : FsState) (projectId : String) :
    Except Err String :=
  match getProject st projectId with
  | .error e => .error e
  | .ok none => .error (.generic ("Project " ++ projectId ++ " not found"))
  | .ok (some project) =>
      match listEntitiesByProject st projectId with
      | .error e => .error e
      | .ok entities =>
          let md := "# " ++ project.name ++ "\n\n"
          let md := appendIfStr md project.description (fun s => s ++ "\n\n")
          let md := appendIfList md project.tags (fun tags =>
            "**Tags:** " ++ String.intercalate ", " tags ++ "\n\n")
          let md := md ++ "---\n\n"
          .ok (entities.foldl (fun acc e =>
            acc ++ (formatEntityAsMarkdown e ++ "\n---\n\n")) md)

/-! ## Directory resolver (`src/storage/index.ts:27-52`)

`getDataDir` reads one environment variable with a JS falsy check (an empty
value falls through to the default under the working directory).
`ensureDirectories` keeps one process-wide cache slot holding the data dir
it most recently initialized; `mkdirEvents` records every `fs.mkdir` call
(recursive creation of the two collection subdirectories). -/

/-- Model of `getDataDir`: `process.env.FUNNEL_DESIGN_DATA_DIR || join(process.cwd(), ".funnel-design")`. -/
def getDataDir (env : Option String) (cwd : String) : String :=
  match env with
  | some dir => if dir = "" then cwd ++ "/.funnel-design" else dir
  | none => cwd ++ "/.funnel-design"

/-- Process-wide resolver state: the `initializedDataDir` module variable and
the log of directories passed to `fs.mkdir`. -/
structure DirState where
  initializedDataDir : Option String
  mkdirEvents : List String
deriving DecidableEq, Repr

/-- Model of `ensureDirectories` (src/storage/index.ts:41). -/
def ensureDirectories (env : Option String) (cwd : String) (ds : DirState) : DirState :=
  let currentDataDir := getDataDir env cwd
  if ds.initializedDataDir = some currentDataDir then ds
  else
    { initializedDataDir := some currentDataDir,
      mkdirEvents := ds.mkdirEvents ++
        [currentDataDir ++ "/projects", currentDataDir ++ "/entities"] }

/-- Model of `resetDirectoryInit` (src/storage/index.ts:50). -/
def resetDirectoryInit (ds : DirState) : DirState :=
  { ds with initializedDataDir := none }

/-- A sequence of store operations under possibly changing configured roots:
each operation begins with `ensureDirectories` under the then-current
environment. -/
def runEnsureSeq (cwd : String) (envs : List (Option String)) (ds : DirState) : DirState :=
  envs.foldl (fun s env => ensureDirectories env cwd s) ds

/-- How many times the directory-creation side effect ran for root `root`. -/
def mkdirCountFor (ds : DirState) (root : String) : Nat :=
  (ds.mkdirEvents.filter (fun d => d == root ++ "/projects")).length

/-! ## String-containment utilities -/

/-- Predicate: `pat` occurs as a contiguous substring of `s`. -/
def ContainsStr (s pat : String) : Prop := ∃ a b, s = a ++ (pat ++ b)

theorem containsStr_appendL {s pat : String} (t : String) (h : ContainsStr s pat) :
    ContainsStr (s ++ t) pat := by
  obtain ⟨a, b, rfl⟩ := h
  exact ⟨a, b ++ t, by rw [String.append_assoc, String.append_assoc]⟩

theorem containsStr_appendR {t pat : String} (s : String) (h : ContainsStr t pat) :
    ContainsStr (s ++ t) pat := by
  obtain ⟨a, b, rfl⟩ := h
  exact ⟨s ++ a, b, by rw [String.append_assoc]⟩

theorem containsStr_head {pat t : String} : ContainsStr (pat ++ t) pat :=
  ⟨"", t, by rw [String.empty_append]⟩

theorem containsStr_of_head {s pat : String} (h : ∃ t, s = pat ++ t) :
    ContainsStr s pat := by
  obtain ⟨t, rfl⟩ := h
  exact containsStr_head

/-- Composing two "only appends to the right" facts. -/
theorem exists_append_trans {base x y : String} (h1 : ∃ t, x = base ++ t)
    (h2 : ∃ u, y = x ++ u) : ∃ v, y = base ++ v := by
  obtain ⟨t, rfl⟩ := h1
  obtain ⟨u, rfl⟩ := h2
  exact ⟨t ++ u, by rw [String.append_assoc]⟩

theorem exists_append_refl (x : String) : ∃ t, x = x ++ t :=
  ⟨"", (String.append_empty x).symm⟩

theorem appendIfStr_extends (md : String) (field : Option String)
    (render : String → String) : ∃ t, appendIfStr md field render = md ++ t := by
  match field with
  | none => exact ⟨"", (String.append_empty md).symm⟩
  | some s =>
      by_cases h : s = "" <;>
        simp [appendIfStr, h, exists_append_refl, String.append_empty]

theorem appendIfNum_extends (md : String) (field : Option Int)
    (render : Int → String) : ∃ t, appendIfNum md field render = md ++ t := by
  match field with
  | none => exact ⟨"", (String.append_empty md).symm⟩
  | some n =>
      by_cases h : n = 0 <;>
        simp [appendIfNum, h, exists_append_refl, String.append_empty]

theorem appendIfSome_extends {α : Type} (md : String) (field : Option α)
    (render : α → String) : ∃ t, appendIfSome md field render = md ++ t := by
  match field with
  | none => exact ⟨"", (String.append_empty md).symm⟩
  | some x => exact ⟨render x, rfl⟩

theorem appendIfList_extends {α : Type} (md : String) (field : Option (List α))
    (render : List α → String) : ∃ t, appendIfList md field render = md ++ t := by
  match field with
  | none => exact ⟨"", (String.append_empty md).symm⟩
  | some l =>
      by_cases h : l.isEmpty <;>
        simp [appendIfList, h, exists_append_refl, String.append_empty]

/-- A fold that appends per element only appends to the right. -/
theorem foldl_append_extends {α : Type} (g : String → α → String)
    (hg : ∀ acc x, ∃ t, g acc x = acc ++ t) (xs : List α) (init : String) :
    ∃ t, xs.foldl g init = init ++ t := by
  induction xs generalizing init with
  | nil => exact ⟨"", (String.append_empty init).symm⟩
  | cons x rest ih =>
      obtain ⟨u, hu⟩ := hg init x
      obtain ⟨v, hv⟩ := ih (init ++ u)
      exact ⟨u ++ v, by simp only [List.foldl_cons, hu, hv, String.append_assoc]⟩

/-! ## Concrete fixtures used by witness theorems -/

/-- The empty store: no project or entity files. -/
def stEmpty : FsState := { projects := [], entities := [] }

/-- Fixture stage "Awareness" (conversion rate 50%). -/
def stageAwareness : FunnelStage :=
  { name := "Awareness", description := none, entryCriteria := none,
    exitCriteria := none, volume := none, conversionRate := some 50,
    averageTimeInStage := none, keyActions := none, dropOffReasons := none,
    optimizationNotes := none }

/-- Fixture stage "Interest" (conversion rate 30%). -/
def stageInterest : FunnelStage :=
  { name := "Interest", description := none, entryCriteria := none,
    exitCriteria := none, volume := none, conversionRate := some 30,
    averageTimeInStage := none, keyActions := none, dropOffReasons := none,
    optimizationNotes := none }

/-- Fixture conversion-funnel payload with the two stages. -/
def convDataW : ConversionData :=
  { stages := [stageAwareness, stageInterest], trafficSources := none,
    overallMetrics := none, bottlenecks := none }

/-- Fixture entity record `e1` owned by project `p1`. -/
def entW : Entity :=
  { id := "e1", projectId := "p1", name := "Funnel A", description := none,
    createdAt := 1, updatedAt := 2, data := .conversionFunnel convDataW }

/-- Fixture project record `p1` referencing `e1`. -/
def projW : Project :=
  { id := "p1", name := "Export Test", description := none, tags := none,
    createdAt := 0, updatedAt := 5, entities := [⟨"e1", "conversion-funnel"⟩] }

/-- Fixture store holding `p1` and `e1`. -/
def stW : FsState :=
  { projects := [("p1", .record projW)], entities := [("e1", .record entW)] }

/-- A fold that appends per element contains every per-element chunk. -/
theorem foldl_append_contains {α : Type} (g : String → α → String)
    (hg : ∀ acc x, ∃ t, g acc x = acc ++ t) (xs : List α) (init : String)
    (x : α) (hx : x ∈ xs) (pat : String) (hpat : ∀ acc, ContainsStr (g acc x) pat) :
    ContainsStr (xs.foldl g init) pat := by
  induction xs generalizing init with
  | nil => cases hx
  | cons y rest ih =>
      rcases List.mem_cons.mp hx with hxy | hxrest
      · subst hxy
        obtain ⟨t, ht⟩ := foldl_append_extends g hg rest (g init x)
        rw [List.foldl_cons, ht]
        exact containsStr_appendL t (hpat init)
      · rw [List.foldl_cons]
        exact ih (g init y) hxrest

/-! ## Claim theorems -/

/-- C6: for an id with no stored project record, `getProject` resolves to
null and never throws; any read of a corrupt project file raises a
`READ_FAILED` `StorageError`; and `createEntity` for a missing project id
rejects, leaving the store unchanged, with a plain error whose message
contains the literal offending id. -/
theorem notFound_semantics (st : FsState) (projectId : String) :
    (lookupFile st.projects projectId = none → getProject st projectId = .ok none) ∧
    (lookupFile st.projects projectId = some .corrupt →
       getProject st projectId =
         .error (.storage ("Failed to read project " ++ projectId) .READ_FAILED)) ∧
    (lookupFile st.projects projectId = none →
       ∀ payload newId ts1 ts2 ts3,
         createEntity st projectId payload newId ts1 ts2 ts3 =
           (.error (.generic ("Project " ++ projectId ++ " not found")), st) ∧
         ContainsStr ("Project " ++ projectId ++ " not found") projectId) := by
  refine ⟨fun h => ?_, fun h => ?_, fun h payload newId ts1 ts2 ts3 => ⟨?_, ?_⟩⟩
  · simp [getProject, h]
  · simp [getProject, h]
  · simp [createEntity, getProject, h]
  · exact ⟨"Project ", " not found", rfl⟩

/-- Witness for C6 at the empty store and the literal id `"missing-id"`. -/
theorem notFound_semantics_witness :
    getProject stEmpty "missing-id" = .ok none ∧
    createEntity stEmpty "missing-id"
        ⟨"N", none, .conversionFunnel ⟨[], none, none, none⟩⟩ "e9" 1 2 3 =
      (.error (.generic ("Project " ++ "missing-id" ++ " not found")), stEmpty) ∧
    ContainsStr ("Project " ++ "missing-id" ++ " not found") "missing-id" := by
  have h := notFound_semantics stEmpty "missing-id"
  have h3 := h.2.2 rfl ⟨"N", none, .conversionFunnel ⟨[], none, none, none⟩⟩ "e9" 1 2 3
  exact ⟨h.1 rfl, h3.1, h3.2⟩

/-- C10: for a projectId with no stored project record,
`listEntitiesByProject` resolves to the empty list (and `listEntitiesByType`
likewise) rather than raising, while both export operations throw
"project not found" for the same id. -/
theorem listByProject_missing_project_empty (st : FsState) (projectId : String)
    (h : lookupFile st.projects projectId = none) :
    listEntitiesByProject st projectId = .ok [] ∧
    (∀ ty, listEntitiesByType st projectId ty = .ok []) ∧
    exportProjectToJson st projectId =
      .error (.generic ("Project " ++ projectId ++ " not found")) ∧
    exportProjectToMarkdown st projectId =
      .error (.generic ("Project " ++ projectId ++ " not found")) := by
  refine ⟨?_, fun ty => ?_, ?_, ?_⟩ <;>
    simp [listEntitiesByProject, listEntitiesByType, exportProjectToJson,
      exportProjectToMarkdown, getProject, h]

/-- Witness for C10 at the store holding only `p1`. -/
theorem listByProject_missing_project_empty_witness :
    listEntitiesByProject stW "p2" = .ok [] ∧
    listEntitiesByType stW "p2" "aida-funnel" = .ok [] ∧
    exportProjectToJson stW "p2" =
      .error (.generic ("Project " ++ "p2" ++ " not found")) := by
  have h := listByProject_missing_project_empty stW "p2" (by decide)
  exact ⟨h.1, h.2.1 "aida-funnel", h.2.2.1⟩

/-- C3 counterexample: the initialization cache holds only the most recently
resolved root, so after the configured root changes from `"A"` to `"B"` and
back, the directory-creation side effect for `"A"` runs a second time in the
same process lifetime with no reset in between — the claimed
"at most once per process lifetime per root" bound fails. -/
theorem ensureDirectories_root_flip_recreates :
    mkdirCountFor
        (runEnsureSeq "w" [some "A", some "B", some "A"]
          { initializedDataDir := none, mkdirEvents := [] }) "A" = 2 ∧
    ¬ mkdirCountFor
        (runEnsureSeq "w" [some "A", some "B", some "A"]
          { initializedDataDir := none, mkdirEvents := [] }) "A" ≤ 1 := by
  constructor <;> decide

/-- C3 (amended): the directory-creation side effect is skipped exactly when
the cache already holds the current resolved root, so repeated operations
under an unchanged root initialize at most once (`ensureDirectories` is
idempotent), each call leaves the cache at the current root, and the explicit
reset clears the cache. (Changing the root away and back re-runs the side
effect, per the counterexample.) -/
theorem ensureDirectories_cache_last_root (env : Option String) (cwd : String)
    (ds : DirState) :
    (ds.initializedDataDir = some (getDataDir env cwd) →
       ensureDirectories env cwd ds = ds) ∧
    ensureDirectories env cwd (ensureDirectories env cwd ds) =
      ensureDirectories env cwd ds ∧
    (ensureDirectories env cwd ds).initializedDataDir = some (getDataDir env cwd) ∧
    (resetDirectoryInit ds).initializedDataDir = none := by
  by_cases h : ds.initializedDataDir = some (getDataDir env cwd) <;>
    simp [ensureDirectories, resetDirectoryInit, h]

/-- Witness for C3 (amended): with the cache already holding root `"A"`, a
further call is a no-op. -/
theorem ensureDirectories_cache_last_root_witness :
    ensureDirectories (some "A") "w"
        { initializedDataDir := some "A",
          mkdirEvents := ["A/projects", "A/entities"] } =
      { initializedDataDir := some "A",
        mkdirEvents := ["A/projects", "A/entities"] } :=
  (ensureDirectories_cache_last_root (some "A") "w"
    { initializedDataDir := some "A",
      mkdirEvents := ["A/projects", "A/entities"] }).1 (by decide)

/-- C1: after `createEntity(P.id, payload)` succeeds on an existing project
`P`, the project file holds exactly one new `{id, type}` reference, appended
after all prior references and matching the returned entity, and the entity
file holds a record whose `projectId` is `P.id`. -/
theorem createEntity_referential_integrity (st : FsState) (projectId : String)
    (payload : EntityPayload) (newId : String) (ts1 ts2 ts3 : Nat) (P : Project)
    (hP : getProject st projectId = .ok (some P)) (hid : P.id = projectId) :
    (∃ ent st', createEntity st projectId payload newId ts1 ts2 ts3 = (.ok ent, st')) ∧
    ∀ ent st', createEntity st projectId payload newId ts1 ts2 ts3 = (.ok ent, st') →
      ent.id = newId ∧ ent.projectId = projectId ∧
      ent.type = payload.data.typeTag ∧
      getProject st' projectId =
        .ok (some { P with
          entities := P.entities ++ [⟨ent.id, ent.type⟩], updatedAt := ts3 }) ∧
      getEntity st' ent.id = .ok (some ent) := by
  simp only [createEntity, hP, updateProject]
  refine ⟨⟨_, _, rfl⟩, ?_⟩
  intro ent st' h
  injection h with hfst hsnd
  injection hfst with hent
  subst hsnd
  subst hent
  refine ⟨rfl, rfl, rfl, ?_, ?_⟩
  · simp only [getProject]
    rw [hid, lookupFile_setFile_self]
  · simp only [getEntity]
    rw [lookupFile_setFile_self]

/-- Fixture entity payload: a bare conversion funnel named `N`. -/
def payloadW : EntityPayload := ⟨"N", none, .conversionFunnel ⟨[], none, none, none⟩⟩

/-- Witness for C1: creating an entity in the one-project store. -/
theorem createEntity_referential_integrity_witness :
    (∃ ent st', createEntity stW "p1" payloadW "e2" 1 2 3 = (.ok ent, st')) ∧
    ∀ ent st', createEntity stW "p1" payloadW "e2" 1 2 3 = (.ok ent, st') →
      ent.id = "e2" ∧ ent.projectId = "p1" ∧
      ent.type = payloadW.data.typeTag ∧
      getProject st' "p1" =
        .ok (some { projW with
          entities := projW.entities ++ [⟨ent.id, ent.type⟩], updatedAt := 3 }) ∧
      getEntity st' ent.id = .ok (some ent) :=
  createEntity_referential_integrity stW "p1" payloadW "e2" 1 2 3 projW rfl rfl

/-- C4: `deleteEntity` returns false and changes nothing when no entity
record exists; otherwise it removes the matching reference from the owning
project and persists it when that project still exists (skipping this step
silently when the project is gone), then deletes the entity file and returns
true. -/
theorem deleteEntity_spec (st : FsState) (flt : Faults) (entityId : String) (ts : Nat) :
    (lookupFile st.entities entityId = none →
       deleteEntity st flt entityId ts = (.ok false, st)) ∧
    (∀ e P, lookupFile st.entities entityId = some (.record e) →
       lookupFile st.projects e.projectId = some (.record P) →
       P.id = e.projectId → flt.entityUnlinkFails entityId = false →
       (deleteEntity st flt entityId ts).1 = .ok true ∧
       lookupFile (deleteEntity st flt entityId ts).2.projects e.projectId =
         some (.record { P with
           entities := P.entities.filter (fun r => r.id != entityId),
           updatedAt := ts }) ∧
       lookupFile (deleteEntity st flt entityId ts).2.entities entityId = none) ∧
    (∀ e, lookupFile st.entities entityId = some (.record e) →
       lookupFile st.projects e.projectId = none →
       flt.entityUnlinkFails entityId = false →
       (deleteEntity st flt entityId ts).1 = .ok true ∧
       (deleteEntity st flt entityId ts).2.projects = st.projects ∧
       lookupFile (deleteEntity st flt entityId ts).2.entities entityId = none) := by
  refine ⟨fun h => ?_, fun e P he hP hid hflt => ?_, fun e he hP hflt => ?_⟩
  · simp [deleteEntity, getEntity, h]
  · refine ⟨?_, ?_, ?_⟩ <;>
      simp [deleteEntity, getEntity, he, getProject, hP, updateProject, hflt,
        hid, lookupFile_setFile_self, lookupFile_removeFile_self]
  · refine ⟨?_, ?_, ?_⟩ <;>
      simp [deleteEntity, getEntity, he, getProject, hP, updateProject, hflt,
        lookupFile_removeFile_self]

/-- Witness for C4: deleting `e1` from the one-project store removes its
reference from `p1` and its entity file. -/
theorem deleteEntity_spec_witness :
    (deleteEntity stW noFaults "e1" 9).1 = .ok true ∧
    lookupFile (deleteEntity stW noFaults "e1" 9).2.projects entW.projectId =
      some (.record { projW with
        entities := projW.entities.filter (fun r => r.id != "e1"),
        updatedAt := 9 }) ∧
    lookupFile (deleteEntity stW noFaults "e1" 9).2.entities "e1" = none :=
  (deleteEntity_spec stW noFaults "e1" 9).2.1 entW projW rfl rfl rfl rfl

/-- C9: when the final entity-file unlink fails, `deleteEntity` throws
`DELETE_FAILED`, but the owning project has already been rewritten without
the entity's reference while the entity file remains — the error leaves the
entity as an orphan rather than leaving state unchanged. -/
theorem deleteEntity_unlink_failure_orphans (st : FsState) (flt : Faults)
    (entityId : String) (ts : Nat) (e : Entity) (P : Project)
    (he : lookupFile st.entities entityId = some (.record e))
    (hP : lookupFile st.projects e.projectId = some (.record P))
    (hid : P.id = e.projectId)
    (hflt : flt.entityUnlinkFails entityId = true) :
    (deleteEntity st flt entityId ts).1 =
      .error (.storage ("Failed to delete entity " ++ entityId) .DELETE_FAILED) ∧
    lookupFile (deleteEntity st flt entityId ts).2.projects e.projectId =
      some (.record { P with
        entities := P.entities.filter (fun r => r.id != entityId),
        updatedAt := ts }) ∧
    (∀ r ∈ P.entities.filter (fun r => r.id != entityId), r.id ≠ entityId) ∧
    lookupFile (deleteEntity st flt entityId ts).2.entities entityId =
      some (.record e) := by
  refine ⟨?_, ?_, fun r hr => bne_iff_ne.mp (List.mem_filter.mp hr).2, ?_⟩ <;>
    simp [deleteEntity, getEntity, he, getProject, hP, updateProject, hflt,
      hid, lookupFile_setFile_self]

/-- Fault configuration in which unlinking entity file `e1` fails. -/
def faultsE1 : Faults := ⟨fun i => i == "e1", fun _ => false⟩

/-- Witness for C9: a failing unlink of `e1` leaves `p1` rewritten without
the reference and `e1` still on disk. -/
theorem deleteEntity_unlink_failure_orphans_witness :
    (deleteEntity stW faultsE1 "e1" 9).1 =
      .error (.storage ("Failed to delete entity " ++ "e1") .DELETE_FAILED) ∧
    lookupFile (deleteEntity stW faultsE1 "e1" 9).2.projects entW.projectId =
      some (.record { projW with
        entities := projW.entities.filter (fun r => r.id != "e1"),
        updatedAt := 9 }) ∧
    (∀ r ∈ projW.entities.filter (fun r => r.id != "e1"), r.id ≠ "e1") ∧
    lookupFile (deleteEntity stW faultsE1 "e1" 9).2.entities "e1" =
      some (.record entW) :=
  deleteEntity_unlink_failure_orphans stW faultsE1 "e1" 9 entW projW rfl rfl rfl rfl

/-- The record a reference resolves to when its target file exists and
parses, else `none`. -/
def readEntityFile (st : FsState) (r : EntityRef) : Option Entity :=
  match lookupFile st.entities r.id with
  | some (.record e) => some e
  | _ => none

/-- When no referenced entity file is corrupt, resolving the references
succeeds and yields each file's record (or `none` for a missing file). -/
theorem resolveEntityRefs_ok (st : FsState) (refs : List EntityRef)
    (h : ∀ r ∈ refs, lookupFile st.entities r.id = none ∨
       ∃ e, lookupFile st.entities r.id = some (.record e)) :
    resolveEntityRefs st refs = .ok (refs.map (readEntityFile st)) := by
  induction refs with
  | nil => rfl
  | cons r rest ih =>
      have hrest := ih (fun x hx => h x (List.mem_cons_of_mem r hx))
      rcases h r (List.mem_cons_self r rest) with hn | ⟨e, he⟩
      · simp [resolveEntityRefs, getEntity, hn, hrest, readEntityFile]
      · simp [resolveEntityRefs, getEntity, he, hrest, readEntityFile]

/-- C5: an entity record whose file exists but is not referenced by its
owning project (an orphan) is excluded from `listEntitiesByProject` while
`getEntity` still returns it; and every reference whose target entity file
is missing is silently dropped from the listing instead of failing it. -/
theorem listByProject_orphan_tolerance (st : FsState) (projectId : String)
    (P : Project) (E : Entity)
    (hP : getProject st projectId = .ok (some P))
    (hwf : ∀ i e, lookupFile st.entities i = some (.record e) → e.id = i)
    (hrefs : ∀ r ∈ P.entities, lookupFile st.entities r.id = none ∨
       ∃ e, lookupFile st.entities r.id = some (.record e))
    (hE : lookupFile st.entities E.id = some (.record E))
    (horphan : ∀ r ∈ P.entities, r.id ≠ E.id) :
    listEntitiesByProject st projectId =
      .ok (P.entities.filterMap (readEntityFile st)) ∧
    E ∉ P.entities.filterMap (readEntityFile st) ∧
    (∀ r, lookupFile st.entities r.id = none → readEntityFile st r = none) ∧
    getEntity st E.id = .ok (some E) := by
  refine ⟨?_, ?_, fun r h => by simp [readEntityFile, h], ?_⟩
  · simp only [listEntitiesByProject, hP, resolveEntityRefs_ok st P.entities hrefs]
    simp [List.filterMap_map]
  · intro hmem
    obtain ⟨r, hr, hfr⟩ := List.mem_filterMap.mp hmem
    cases hlk : lookupFile st.entities r.id with
    | none => simp [readEntityFile, hlk] at hfr
    | some f =>
        cases f with
        | corrupt => simp [readEntityFile, hlk] at hfr
        | record e =>
            simp only [readEntityFile, hlk, Option.some.injEq] at hfr
            subst hfr
            exact horphan r hr (hwf r.id e hlk).symm
  · simp [getEntity, hE]

/-- Fixture orphan entity `e2`: owned by `p1` but not referenced by it. -/
def entOrphan : Entity :=
  { id := "e2", projectId := "p1", name := "Orphan", description := none,
    createdAt := 1, updatedAt := 2, data := .conversionFunnel ⟨[], none, none, none⟩ }

/-- Fixture store for C5: `p1` references only `e1`, whose file is missing;
the file of orphan `e2` exists. -/
def stOrphan : FsState :=
  { projects := [("p1", .record projW)], entities := [("e2", .record entOrphan)] }

/-- Witness for C5 at the orphan fixture. -/
theorem listByProject_orphan_tolerance_witness :
    listEntitiesByProject stOrphan "p1" =
      .ok (projW.entities.filterMap (readEntityFile stOrphan)) ∧
    entOrphan ∉ projW.entities.filterMap (readEntityFile stOrphan) ∧
    getEntity stOrphan entOrphan.id = .ok (some entOrphan) := by
  have h := listByProject_orphan_tolerance stOrphan "p1" projW entOrphan
    rfl
    (by
      intro i e h
      simp only [stOrphan, lookupFile] at h
      split at h
      · next heq =>
          injection h with h1
          injection h1 with h2
          subst h2
          rw [← heq]
          rfl
      · exact absurd h (by simp))
    (by
      intro r hr
      have : r = ⟨"e1", "conversion-funnel"⟩ := by
        simpa [projW] using hr
      subst this
      left
      decide)
    (by decide)
    (by decide)
  exact ⟨h.1, h.2.1, h.2.2.2⟩

/-- C7: `listProjects` returns exactly the parsable project records
(a permutation of the best-effort scan that skips unparsable files), in
descending `updatedAt` order; in particular a project whose `updatedAt` is
strictly maximal is returned first. -/
theorem listProjects_sorted (st : FsState) :
    (listProjects st).Perm (parsableProjects st) ∧
    (listProjects st).Pairwise byUpdatedAtDesc ∧
    ∀ p ∈ parsableProjects st,
      (∀ q ∈ parsableProjects st, q = p ∨ q.updatedAt < p.updatedAt) →
      (listProjects st).head? = some p := by
  have hperm : (listProjects st).Perm (parsableProjects st) :=
    List.perm_insertionSort byUpdatedAtDesc (parsableProjects st)
  have hsorted : (listProjects st).Pairwise byUpdatedAtDesc :=
    List.sorted_insertionSort byUpdatedAtDesc (parsableProjects st)
  refine ⟨hperm, hsorted, fun p hp hmax => ?_⟩
  have hpL : p ∈ listProjects st := hperm.mem_iff.mpr hp
  cases hL : listProjects st with
  | nil => rw [hL] at hpL; cases hpL
  | cons h t =>
      have hhP : h ∈ parsableProjects st := by
        rw [← hperm.mem_iff, hL]
        exact List.mem_cons_self h t
      rcases hmax h hhP with he | hlt
      · rw [he]
        rfl
      · exfalso
        rw [hL] at hpL
        rcases List.mem_cons.mp hpL with hph | hpt
        · subst hph
          exact Nat.lt_irrefl _ hlt
        · have hle : byUpdatedAtDesc h p := by
            rw [hL] at hsorted
            exact (List.pairwise_cons.mp hsorted).1 p hpt
          exact Nat.lt_irrefl _ (Nat.lt_of_lt_of_le hlt hle)

/-- Fixture projects created at times 1 < 2 < 3, the oldest updated last. -/
def projT1 : Project :=
  { id := "t1", name := "First", description := none, tags := none,
    createdAt := 1, updatedAt := 9, entities := [] }

/-- Fixture project created second, never updated. -/
def projT2 : Project :=
  { id := "t2", name := "Second", description := none, tags := none,
    createdAt := 2, updatedAt := 2, entities := [] }

/-- Fixture project created third, never updated. -/
def projT3 : Project :=
  { id := "t3", name := "Third", description := none, tags := none,
    createdAt := 3, updatedAt := 3, entities := [] }

/-- Fixture store with the three projects and one corrupt file. -/
def stSort : FsState :=
  { projects := [("t1", .record projT1), ("t2", .record projT2),
      ("bad", .corrupt), ("t3", .record projT3)],
    entities := [] }

/-- Witness for C7: the project updated last is listed first. -/
theorem listProjects_sorted_witness :
    (listProjects stSort).head? = some projT1 :=
  (listProjects_sorted stSort).2.2 projT1 (by decide) (by decide)

/-- During a cascade, a referenced entity file is either already gone or
holds a record owned by the project being deleted. -/
def entityOkFor (st : FsState) (pid i : String) : Prop :=
  lookupFile st.entities i = none ∨
  ∃ e, lookupFile st.entities i = some (.record e) ∧ e.projectId = pid

/-- Invariant of the cascade loop of `deleteProject`: deleting the listed
entities succeeds, removes every listed entity file, keeps the project file
parsable, and never recreates an absent entity file. -/
theorem deleteEntityList_cascade (pid : String) (ts : Nat) (ids : List String) :
    ∀ (st : FsState) (P : Project),
      lookupFile st.projects pid = some (.record P) → P.id = pid →
      (∀ i ∈ ids, entityOkFor st pid i) →
      ∃ st' P',
        deleteEntityList st noFaults ids ts = (.ok (), st') ∧
        lookupFile st'.projects pid = some (.record P') ∧ P'.id = pid ∧
        (∀ i ∈ ids, lookupFile st'.entities i = none) ∧
        (∀ j, lookupFile st.entities j = none → lookupFile st'.entities j = none) := by
  induction ids with
  | nil =>
      intro st P hP hid _
      exact ⟨st, P, rfl, hP, hid, by simp, fun _ h => h⟩
  | cons i rest ih =>
      intro st P hP hid hok
      rcases hok i (List.mem_cons_self i rest) with hn | ⟨e, he, hepid⟩
      · have hstep : deleteEntity st noFaults i ts = (.ok false, st) := by
          simp [deleteEntity, getEntity, hn]
        obtain ⟨st', P', h1, h2, h3, h4, h5⟩ := ih st P hP hid
          (fun j hj => hok j (List.mem_cons_of_mem i hj))
        refine ⟨st', P', ?_, h2, h3, ?_, h5⟩
        · simp only [deleteEntityList]
          rw [hstep]
          exact h1
        · intro j hj
          rcases List.mem_cons.mp hj with rfl | hjr
          · exact h5 j hn
          · exact h4 j hjr
      · have hstep : deleteEntity st noFaults i ts =
            (.ok true,
             { projects := setFile st.projects P.id
                 (.record { P with
                   entities := P.entities.filter (fun r => r.id != i),
                   updatedAt := ts }),
               entities := removeFile st.entities i }) := by
          simp [deleteEntity, getEntity, he, hepid, getProject, hP, updateProject,
            noFaults]
        obtain ⟨st', P', h1, h2, h3, h4, h5⟩ :=
          ih { projects := setFile st.projects P.id
                 (.record { P with
                   entities := P.entities.filter (fun r => r.id != i),
                   updatedAt := ts }),
               entities := removeFile st.entities i }
             { P with
               entities := P.entities.filter (fun r => r.id != i),
               updatedAt := ts }
             (by
               show lookupFile (setFile st.projects P.id _) pid = _
               rw [hid, lookupFile_setFile_self])
             hid
             (by
               intro j hj
               rcases hok j (List.mem_cons_of_mem i hj) with hn' | ⟨e', he', hepid'⟩
               · exact Or.inl (lookupFile_removeFile_none st.entities i j hn')
               · by_cases hji : j = i
                 · subst hji
                   exact Or.inl (lookupFile_removeFile_self st.entities j)
                 · exact Or.inr ⟨e', by
                     rw [lookupFile_removeFile_ne st.entities i j hji]
                     exact he', hepid'⟩)
        refine ⟨st', P', ?_, h2, h3, ?_, ?_⟩
        · simp only [deleteEntityList]
          rw [hstep]
          exact h1
        · intro j hj
          rcases List.mem_cons.mp hj with rfl | hjr
          · exact h5 j (lookupFile_removeFile_self st.entities j)
          · exact h4 j hjr
        · intro j hj
          exact h5 j (lookupFile_removeFile_none st.entities i j hj)

/-- C2: deleting a project whose references all resolve to existing entity
records owned by it returns true and afterwards both the project file and
every formerly referenced entity file are gone; deleting an id with no
project record returns false and changes nothing. -/
theorem deleteProject_cascade (st : FsState) (projectId : String) (ts : Nat) :
    (∀ P, lookupFile st.projects projectId = some (.record P) → P.id = projectId →
       (∀ r ∈ P.entities, ∃ e, lookupFile st.entities r.id = some (.record e) ∧
          e.projectId = projectId) →
       ∃ st', deleteProject st noFaults projectId ts = (.ok true, st') ∧
         lookupFile st'.projects projectId = none ∧
         ∀ r ∈ P.entities, lookupFile st'.entities r.id = none) ∧
    (∀ flt, lookupFile st.projects projectId = none →
       deleteProject st flt projectId ts = (.ok false, st)) := by
  constructor
  · intro P hP hid hrefs
    obtain ⟨st1, P', h1, h2, h3, h4, h5⟩ :=
      deleteEntityList_cascade projectId ts (P.entities.map (fun r => r.id)) st P hP hid
        (by
          intro i hi
          obtain ⟨r, hr, rfl⟩ := List.mem_map.mp hi
          obtain ⟨e, he, hepid⟩ := hrefs r hr
          exact Or.inr ⟨e, he, hepid⟩)
    refine ⟨{ st1 with projects := removeFile st1.projects projectId }, ?_, ?_, ?_⟩
    · simp only [deleteProject, getProject, hP]
      rw [h1]
      simp [h2, noFaults]
    · simp [lookupFile_removeFile_self]
    · intro r hr
      exact h4 r.id (List.mem_map_of_mem (fun r => r.id) hr)
  · intro flt h
    simp [deleteProject, getProject, h]

/-- Witness for C2: deleting `p1` from the one-project store also deletes
`e1`, and deleting a missing id is a no-op returning false. -/
theorem deleteProject_cascade_witness :
    (∃ st', deleteProject stW noFaults "p1" 9 = (.ok true, st') ∧
       lookupFile st'.projects "p1" = none ∧
       ∀ r ∈ projW.entities, lookupFile st'.entities r.id = none) ∧
    deleteProject stW noFaults "p2" 9 = (.ok false, stW) := by
  constructor
  · exact (deleteProject_cascade stW "p1" 9).1 projW rfl rfl
      (by
        intro r hr
        have : r = ⟨"e1", "conversion-funnel"⟩ := by
          simpa [projW] using hr
        subst this
        exact ⟨entW, rfl, rfl⟩)
  · exact (deleteProject_cascade stW "p2" 9).2 noFaults (by decide)

/-- A string built by appending to `x` contains whatever `x` contains. -/
theorem contains_extends {x y pat : String} (h : ∃ t, y = x ++ t)
    (hx : ContainsStr x pat) : ContainsStr y pat := by
  obtain ⟨t, rfl⟩ := h
  exact containsStr_appendL t hx

/-- Each rendered conversion stage starts with its `#### <name>` heading. -/
theorem formatConversionStage_head (stage : FunnelStage) :
    ∃ t, formatConversionStage stage = ("#### " ++ (stage.name ++ "\n")) ++ t := by
  simp only [formatConversionStage]
  refine exists_append_trans ?_ ⟨"\n", rfl⟩
  refine exists_append_trans ?_ (appendIfStr_extends _ _ _)
  refine exists_append_trans ?_ (appendIfList_extends _ _ _)
  refine exists_append_trans ?_ (appendIfStr_extends _ _ _)
  refine exists_append_trans ?_ (appendIfSome_extends _ _ _)
  refine exists_append_trans ?_ (appendIfSome_extends _ _ _)
  refine exists_append_trans ?_ (appendIfStr_extends _ _ _)
  refine exists_append_trans ?_ (appendIfStr_extends _ _ _)
  refine exists_append_trans ?_ (appendIfStr_extends _ _ _)
  exact exists_append_refl _

/-- The rendered conversion funnel contains the `#### <name>` heading of
every stage. -/
theorem formatConversion_contains_stage (e : Entity) (d : ConversionData)
    (stage : FunnelStage) (hs : stage ∈ d.stages) :
    ContainsStr (formatConversion e d) ("#### " ++ (stage.name ++ "\n")) := by
  simp only [formatConversion]
  refine contains_extends (appendIfList_extends _ _ _) ?_
  refine contains_extends (appendIfSome_extends _ _ _) ?_
  refine contains_extends (appendIfList_extends _ _ _) ?_
  refine foldl_append_contains _ (fun acc x => ⟨formatConversionStage x, rfl⟩)
    d.stages _ stage hs _ (fun acc => ?_)
  obtain ⟨t, ht⟩ := formatConversionStage_head stage
  rw [ht]
  exact containsStr_appendR acc containsStr_head

/-- C8: for an existing project, the markdown export opens with the
project's name as a top-level `# <name>` heading and contains a per-stage
`#### <name>` heading for each stage of every resolved conversion-funnel
entity; for a missing project id, both export operations fail with a
"project not found" error. -/
theorem exportMarkdown_spec (st : FsState) (projectId : String) :
    (∀ P es md, getProject st projectId = .ok (some P) →
       listEntitiesByProject st projectId = .ok es →
       exportProjectToMarkdown st projectId = .ok md →
       (∃ rest, md = ("# " ++ (P.name ++ "\n\n")) ++ rest) ∧
       ∀ e ∈ es, ∀ d, e.data = EntityData.conversionFunnel d →
         ∀ stage ∈ d.stages,
           ContainsStr md ("#### " ++ (stage.name ++ "\n"))) ∧
    (lookupFile st.projects projectId = none →
       exportProjectToJson st projectId =
         .error (.generic ("Project " ++ projectId ++ " not found")) ∧
       exportProjectToMarkdown st projectId =
         .error (.generic ("Project " ++ projectId ++ " not found"))) := by
  constructor
  · intro P es md hP hes hmd
    simp only [exportProjectToMarkdown, hP, hes, Except.ok.injEq] at hmd
    subst hmd
    constructor
    · refine exists_append_trans ?_
        (foldl_append_extends _ (fun acc x => ⟨_, rfl⟩) es _)
      refine exists_append_trans ?_ ⟨"---\n\n", rfl⟩
      refine exists_append_trans ?_ (appendIfList_extends _ _ _)
      refine exists_append_trans ?_ (appendIfStr_extends _ _ _)
      exact exists_append_refl _
    · intro e he d hd stage hs
      refine foldl_append_contains _ (fun acc x => ⟨_, rfl⟩) es _ e he _
        (fun acc => containsStr_appendR acc (containsStr_appendL _ ?_))
      rw [show formatEntityAsMarkdown e = formatConversion e d from by
        simp [formatEntityAsMarkdown, hd]]
      exact formatConversion_contains_stage e d stage hs
  · intro h
    constructor <;>
      simp [exportProjectToJson, exportProjectToMarkdown, getProject, h]

/-- The markdown produced for the fixture project `p1`. -/
def mdW : String :=
  match exportProjectToMarkdown stW "p1" with
  | .ok s => s
  | .error _ => ""

/-- Witness for C8: the fixture export opens with `# Export Test` and
contains the `#### Awareness` stage heading. -/
theorem exportMarkdown_spec_witness :
    (∃ rest, mdW = ("# " ++ ("Export Test" ++ "\n\n")) ++ rest) ∧
    ContainsStr mdW ("#### " ++ ("Awareness" ++ "\n")) := by
  have h := (exportMarkdown_spec stW "p1").1 projW [entW] mdW rfl rfl rfl
  exact ⟨h.1, h.2 entW (by simp) convDataW rfl stageAwareness (by simp [convDataW])⟩

end FunnelStore
